import Mathlib

/-!
# DelugeDisplayPlugin: parameter addresses

Embedding of `DelugeDisplayPlugin/Parameters/DelugeDisplayPluginParameterAddresses.h`:

```
typedef NS_ENUM(AUParameterAddress, DelugeDisplayPluginParameterAddress) {
    sendNote = 0,
    midiNoteNumber = 1
};
```

The header declares an enumeration with two enumerators whose underlying type is
`AUParameterAddress`. The enumerators become the constructors of an inductive type,
the initialiser written after each `=` becomes `declaredValue` (an `Int`, as the
literals are C `int` constants), and the value held in the underlying unsigned type
becomes `rawValue` (a `Nat`, reduced modulo `2 ^ 64` as the C conversion to an
unsigned type does).

The enumeration has the fixed underlying type `AUParameterAddress`, so an object of the
C type can hold every value of that type, not only the two enumerator values. The
inductive type below is therefore the set of declared names; `Value` is the set of
values an object of the C type can hold, `toValue` is the value an enumerator denotes,
and `Value.ofRaw` is the C cast from an integer.
-/

namespace DelugeDisplayPlugin

/-- Modelled from the spec: the bit width of `AUParameterAddress`, the type the header
takes from `<AudioToolbox/AUParameters.h>` (a framework header outside the repository).
The spec describes it as the host framework's unsigned 64-bit parameter-address type. -/
def AUParameterAddress.bits : Nat := 64

/-- Number of distinct values of `AUParameterAddress`. -/
def AUParameterAddress.size : Nat := 2 ^ AUParameterAddress.bits

/-- Conversion of an integer constant to `AUParameterAddress`: the C conversion to an
unsigned type keeps the value modulo `2 ^ bits`. -/
def AUParameterAddress.ofInt (i : Int) : Nat :=
  (i % (AUParameterAddress.size : Int)).toNat

/-- The enumerators of `DelugeDisplayPluginParameterAddress`, in declaration order. -/
inductive DelugeDisplayPluginParameterAddress
  | sendNote
  | midiNoteNumber
  deriving DecidableEq, Repr, Fintype

namespace DelugeDisplayPluginParameterAddress

/-- The initialiser written for each enumerator in the header
(`sendNote = 0`, `midiNoteNumber = 1`). -/
def declaredValue : DelugeDisplayPluginParameterAddress → Int
  | sendNote => 0
  | midiNoteNumber => 1

/-- The value of an enumerator in the underlying type `AUParameterAddress`. -/
def rawValue (a : DelugeDisplayPluginParameterAddress) : Nat :=
  AUParameterAddress.ofInt (declaredValue a)

/-- The enumerators in the order the header lists them. -/
def enumerators : List DelugeDisplayPluginParameterAddress :=
  [sendNote, midiNoteNumber]

/-- The address table: each enumerator paired with its value in the underlying type. -/
def table : List (DelugeDisplayPluginParameterAddress × Nat) :=
  enumerators.map fun a => (a, rawValue a)

/-- Resolution of an enumerator through the table; `none` would be a failed lookup. -/
def resolve (a : DelugeDisplayPluginParameterAddress) : Option Nat :=
  table.lookup a

/-- A value of the C type `DelugeDisplayPluginParameterAddress`. The header fixes the
underlying type of the enumeration to `AUParameterAddress`, so the values of the type
are exactly the values of `AUParameterAddress`. -/
structure Value where
  raw : Nat
  inRange : raw < AUParameterAddress.size
  deriving DecidableEq, Repr

/-- The cast `(DelugeDisplayPluginParameterAddress)n` of an integer to the enumeration
type: the conversion to the underlying unsigned type keeps `n` modulo its size. -/
def Value.ofRaw (n : Nat) : Value :=
  ⟨n % AUParameterAddress.size, Nat.mod_lt n (Nat.two_pow_pos AUParameterAddress.bits)⟩

/-- The value of the C type that an enumerator denotes. -/
def toValue (a : DelugeDisplayPluginParameterAddress) : Value :=
  ⟨rawValue a, by
    cases a <;>
      simp [rawValue, declaredValue, AUParameterAddress.ofInt, AUParameterAddress.size,
        AUParameterAddress.bits]⟩

end DelugeDisplayPluginParameterAddress

open DelugeDisplayPluginParameterAddress

/-! ## Helper facts -/

theorem rawValue_sendNote_eq : rawValue sendNote = 0 := by
  simp [rawValue, declaredValue, AUParameterAddress.ofInt]

theorem rawValue_midiNoteNumber_eq : rawValue midiNoteNumber = 1 := by
  simp [rawValue, declaredValue, AUParameterAddress.ofInt, AUParameterAddress.size,
    AUParameterAddress.bits]

theorem rawValue_lt_two (a : DelugeDisplayPluginParameterAddress) : rawValue a < 2 := by
  cases a
  · rw [rawValue_sendNote_eq]; decide
  · rw [rawValue_midiNoteNumber_eq]; decide

theorem toValue_raw (a : DelugeDisplayPluginParameterAddress) :
    (toValue a).raw = rawValue a := rfl

theorem Value.eq_iff_raw (v w : Value) : v = w ↔ v.raw = w.raw := by
  cases v; cases w; simp

theorem Value.ofRaw_two_raw : (Value.ofRaw 2).raw = 2 := by
  simp [Value.ofRaw, AUParameterAddress.size, AUParameterAddress.bits]

/-! ## The claims -/

/-- C1: the parameter address table is exactly the snapshot `{sendNote: 0, midiNoteNumber: 1}`;
reading `sendNote` yields the numeric address 0 and reading `midiNoteNumber` yields 1. -/
theorem table_snapshot :
    table = [(sendNote, 0), (midiNoteNumber, 1)] ∧
      rawValue sendNote = 0 ∧ rawValue midiNoteNumber = 1 ∧
      declaredValue sendNote = 0 ∧ declaredValue midiNoteNumber = 1 := by
  refine ⟨?_, rawValue_sendNote_eq, rawValue_midiNoteNumber_eq, rfl, rfl⟩
  simp [table, enumerators, rawValue_sendNote_eq, rawValue_midiNoteNumber_eq]

/-- C2: the map from a declared address to its numeric value is injective (two declared
addresses with the same value are the same address); in particular the value of
`sendNote` differs from the value of `midiNoteNumber`. -/
theorem rawValue_injective :
    Function.Injective rawValue ∧ Function.Injective declaredValue ∧
      rawValue sendNote ≠ rawValue midiNoteNumber := by
  refine ⟨?_, ?_, ?_⟩
  · intro a b h
    cases a <;> cases b <;>
      simp [rawValue_sendNote_eq, rawValue_midiNoteNumber_eq] at h ⊢
  · intro a b h
    cases a <;> cases b <;> simp [declaredValue] at h ⊢
  · rw [rawValue_sendNote_eq, rawValue_midiNoteNumber_eq]; decide

/-- C3: every declared address has an unsigned 64-bit value: the declared value `v`
satisfies `0 ≤ v < 2 ^ 64`, so storing it in the underlying type `AUParameterAddress`
and reading it back loses nothing (`v mod 2 ^ 64 = v`, and the stored value equals `v`),
and no value is negative. -/
theorem declaredValue_fits_uint64 :
    AUParameterAddress.size = 2 ^ 64 ∧
      ∀ a : DelugeDisplayPluginParameterAddress,
        0 ≤ declaredValue a ∧ declaredValue a < 2 ^ 64 ∧
          declaredValue a % 2 ^ 64 = declaredValue a ∧
          (rawValue a : Int) = declaredValue a ∧
          rawValue a < 2 ^ 64 ∧ rawValue a % 2 ^ 64 = rawValue a := by
  refine ⟨rfl, ?_⟩
  intro a
  cases a
  · rw [rawValue_sendNote_eq]
    simp [declaredValue]
  · rw [rawValue_midiNoteNumber_eq]
    simp [declaredValue]

/-- C4, as stated, fails: the value obtained by casting 2 to the type
`DelugeDisplayPluginParameterAddress` is a value of the type (its raw value is 2) that is
neither `sendNote` nor `midiNoteNumber`, so not every value of the type is one of the two. -/
theorem value_two_not_declared :
    (Value.ofRaw 2).raw = 2 ∧
      ¬ (Value.ofRaw 2 = toValue sendNote ∨ Value.ofRaw 2 = toValue midiNoteNumber) ∧
      ¬ ∀ v : Value, v = toValue sendNote ∨ v = toValue midiNoteNumber := by
  have h : ¬ (Value.ofRaw 2 = toValue sendNote ∨ Value.ofRaw 2 = toValue midiNoteNumber) := by
    rw [Value.eq_iff_raw, Value.eq_iff_raw, toValue_raw, toValue_raw, Value.ofRaw_two_raw,
      rawValue_sendNote_eq, rawValue_midiNoteNumber_eq]
    decide
  exact ⟨Value.ofRaw_two_raw, h, fun hall => h (hall (Value.ofRaw 2))⟩

/-- C4, amended: the set of declared addresses is closed and has exactly two members:
every declared address is `sendNote` or `midiNoteNumber`, the two denote distinct values
of the type, the table has two entries with pairwise different values, and a value of the
type is `sendNote` or `midiNoteNumber` exactly when it is the value of a declared address,
which is exactly when its raw value is below 2. -/
theorem declared_address_set_closed :
    (∀ a : DelugeDisplayPluginParameterAddress, a = sendNote ∨ a = midiNoteNumber) ∧
      toValue sendNote ≠ toValue midiNoteNumber ∧
      table.length = 2 ∧ (table.map Prod.snd).Nodup ∧
      (enumerators.map toValue).Nodup ∧
      (∀ v : Value, (v = toValue sendNote ∨ v = toValue midiNoteNumber) ↔
        ∃ a : DelugeDisplayPluginParameterAddress, toValue a = v) ∧
      (∀ v : Value, (v = toValue sendNote ∨ v = toValue midiNoteNumber) ↔ v.raw < 2) := by
  have hne : toValue sendNote ≠ toValue midiNoteNumber := by
    rw [Ne, Value.eq_iff_raw, toValue_raw, toValue_raw, rawValue_sendNote_eq,
      rawValue_midiNoteNumber_eq]
    decide
  refine ⟨?_, hne, rfl, ?_, ?_, ?_, ?_⟩
  · intro a; cases a <;> simp
  · simp [table, enumerators, rawValue_sendNote_eq, rawValue_midiNoteNumber_eq]
  · simp [enumerators, hne]
  · intro v
    constructor
    · rintro (h | h)
      · exact ⟨sendNote, h.symm⟩
      · exact ⟨midiNoteNumber, h.symm⟩
    · rintro ⟨a, rfl⟩
      cases a
      · exact Or.inl rfl
      · exact Or.inr rfl
  · intro v
    rw [Value.eq_iff_raw, Value.eq_iff_raw, toValue_raw, toValue_raw, rawValue_sendNote_eq,
      rawValue_midiNoteNumber_eq]
    omega

/-- C5: resolving an address never fails: the lookup of a declared address in the table
returns a value (never `none`) for every declared address, and that value is the
address's numeric value. -/
theorem resolve_total :
    ∀ a : DelugeDisplayPluginParameterAddress,
      resolve a = some (rawValue a) ∧ (resolve a).isSome = true := by
  intro a
  cases a <;> exact ⟨rfl, rfl⟩

/-- C6: the declared values are dense and in declaration order: the values listed in
declaration order are exactly `0, ..., n - 1` for `n = 2` declared addresses, the `i`-th
declared address has value `i`, the value of `sendNote` is below that of
`midiNoteNumber`, and a raw value `v` names a declared address iff `v < 2`. -/
theorem rawValue_dense_ordered :
    enumerators.map rawValue = List.range enumerators.length ∧
      enumerators.length = 2 ∧
      (∀ (i : Nat) (a : DelugeDisplayPluginParameterAddress),
        enumerators.get? i = some a → rawValue a = i) ∧
      rawValue sendNote < rawValue midiNoteNumber ∧
      (∀ v : Nat, (∃ a : DelugeDisplayPluginParameterAddress, rawValue a = v) ↔ v < 2) := by
  refine ⟨?_, rfl, ?_, ?_, ?_⟩
  · simp [enumerators, rawValue_sendNote_eq, rawValue_midiNoteNumber_eq, List.range_succ]
  · intro i a h
    match i, h with
    | 0, h =>
      simp [enumerators] at h
      subst h; exact rawValue_sendNote_eq
    | 1, h =>
      simp [enumerators] at h
      subst h; exact rawValue_midiNoteNumber_eq
    | (n + 2), h => simp [enumerators] at h
  · rw [rawValue_sendNote_eq, rawValue_midiNoteNumber_eq]; decide
  · intro v
    constructor
    · rintro ⟨a, rfl⟩
      exact rawValue_lt_two a
    · intro hv
      match v, hv with
      | 0, _ => exact ⟨sendNote, rawValue_sendNote_eq⟩
      | 1, _ => exact ⟨midiNoteNumber, rawValue_midiNoteNumber_eq⟩
      | (n + 2), hv => omega

end DelugeDisplayPlugin
